import Mathlib

/-!
Verification of the Vietnamese-AI-Dubbing repository against its
natural-language specification.

The repository under `src/` contains the React frontend: the dubbing
stage vocabulary (`types.ts`), the Zustand application store
(`useAppStore.ts`), the upload validation (`VideoInput.tsx`), the stage
display (`ProgressBar.tsx`) and the API client (`client.ts`).  The
backend Job Pipeline Orchestrator described by the specification is not
part of `src/`; where a claim is decided by that missing component it is
modelled here directly from the specification text, and each such
definition is marked `Modelled from the spec:` in its doc comment.
All other definitions are shallow embeddings of the TypeScript source.
-/

namespace Dubbing

/-! ### Stage vocabulary, from `src/frontend/src/types.ts` (`src/unnamed/part_005`) -/

/-- The `DubbingStage` enum of `types.ts`, whose members carry the
string values `idle`, `downloading`, `transcribing`, `translating`,
`generating_audio`, `merging`, `done`. -/
inductive DubbingStage
  | idle
  | downloading
  | transcribing
  | translating
  | generating_audio
  | merging
  | done
deriving DecidableEq, Repr

/-- The string value each `DubbingStage` member carries in `types.ts`. -/
def DubbingStage.value : DubbingStage → String
  | .idle => "idle"
  | .downloading => "downloading"
  | .transcribing => "transcribing"
  | .translating => "translating"
  | .generating_audio => "generating_audio"
  | .merging => "merging"
  | .done => "done"

/-- The members of `DubbingStage` in declaration order. -/
def dubbingStages : List DubbingStage :=
  [.idle, .downloading, .transcribing, .translating, .generating_audio, .merging, .done]

/-- The real work stages: every member except the bracketing
pseudo-stages `idle` and `done`. -/
def realStages : List DubbingStage :=
  dubbingStages.filter (fun s => !(s == .idle) && !(s == .done))

/-- Display data returned by `getStageInfo` in `ProgressBar.tsx`
(label, description and badge color; the icon component is dropped). -/
structure StageInfo where
  label : String
  description : String
  color : String
deriving DecidableEq, Repr

/-- The `getStageInfo` switch of `ProgressBar.tsx`, one case per
`DubbingStage` member (the `default` branch is unreachable for values of
the enum and is not part of this total function). -/
def getStageInfo : DubbingStage → StageInfo
  | .idle => ⟨"Sẵn sàng", "Chuẩn bị bắt đầu xử lý", "gray"⟩
  | .downloading => ⟨"Đang tải video", "Đang tải video từ nguồn", "blue"⟩
  | .transcribing => ⟨"Đang chuyển văn bản", "Đang nhận diện giọng nói và chuyển thành văn bản", "blue"⟩
  | .translating => ⟨"Đang dịch", "Đang dịch văn bản sang tiếng Việt", "blue"⟩
  | .generating_audio => ⟨"Đang tạo audio", "Đang tạo file audio với giọng tiếng Việt", "blue"⟩
  | .merging => ⟨"Đang hợp nhất", "Đang hợp nhất video gốc với audio mới", "blue"⟩
  | .done => ⟨"Hoàn thành", "Xử lý video thành công", "green"⟩

/-! ### Job record, from `src/frontend/src/api/client.ts` -/

/-- The TypeScript union
`pending | processing | completed | failed | cancelled`
used by the `Job` interface of `client.ts`. -/
inductive JobStatusLit
  | pending
  | processing
  | completed
  | failed
  | cancelled
deriving DecidableEq, Repr

/-- The `Job` interface of `client.ts`.  TypeScript `number` fields are
embedded as `Int` (`id`) and `ℚ` (`progress`, `processing_time`);
optional fields (`?`) become `Option`. -/
structure Job where
  id : Int
  job_id : String
  status : JobStatusLit
  progress : ℚ
  input_type : String
  input_filename : Option String
  output_filename : Option String
  created_at : String
  updated_at : String
  started_at : Option String
  completed_at : Option String
  processing_time : Option ℚ
  error_message : Option String
deriving DecidableEq, Repr

/-- A TypeScript `Partial<Job>`: every key may be absent.  A key that is
present overrides the corresponding `Job` field on spread-merge, so for
the already-optional fields the payload is again an `Option`. -/
structure JobUpdate where
  id : Option Int
  job_id : Option String
  status : Option JobStatusLit
  progress : Option ℚ
  input_type : Option String
  input_filename : Option (Option String)
  output_filename : Option (Option String)
  created_at : Option String
  updated_at : Option String
  started_at : Option (Option String)
  completed_at : Option (Option String)
  processing_time : Option (Option ℚ)
  error_message : Option (Option String)
deriving DecidableEq, Repr

/-- The `Partial<Job>` with no key present. -/
def JobUpdate.empty : JobUpdate :=
  ⟨none, none, none, none, none, none, none, none, none, none, none, none, none⟩

/-- The TypeScript spread `{ ...job, ...updates }`: each field of
`updates` that is present replaces the field of `job`. -/
def mergeJob (j : Job) (u : JobUpdate) : Job where
  id := u.id.getD j.id
  job_id := u.job_id.getD j.job_id
  status := u.status.getD j.status
  progress := u.progress.getD j.progress
  input_type := u.input_type.getD j.input_type
  input_filename := u.input_filename.getD j.input_filename
  output_filename := u.output_filename.getD j.output_filename
  created_at := u.created_at.getD j.created_at
  updated_at := u.updated_at.getD j.updated_at
  started_at := u.started_at.getD j.started_at
  completed_at := u.completed_at.getD j.completed_at
  processing_time := u.processing_time.getD j.processing_time
  error_message := u.error_message.getD j.error_message

/-! ### Application store, from `src/frontend/src/store/useAppStore.ts` -/

/-- The mutable fields of the Zustand `AppState` (the action closures
themselves and the `any`-typed `user`/`jobStats` references are not
data; `user` and `jobStats` are kept as opaque presence flags so that
frame conditions can mention them). -/
structure AppState where
  isLoading : Bool
  error : Option String
  success : Option String
  jobs : List Job
  currentJob : Option Job
  hasJobStats : Bool
  isProcessing : Bool
  processingProgress : ℚ
  processingStatus : String
deriving DecidableEq, Repr

namespace AppState

/-- The `updateJob` action of `useAppStore.ts`: maps over `jobs`,
spread-merging `updates` into every job whose `job_id` equals `jobId`,
and merges `currentJob` the same way when its `job_id` matches
(`state.currentJob?.job_id === jobId` is `false` when `currentJob` is
`null`).  The Zustand `set` merges the returned partial state, leaving all
other fields untouched. -/
def updateJob (s : AppState) (jobId : String) (u : JobUpdate) : AppState :=
  { s with
    jobs := s.jobs.map (fun job => if job.job_id = jobId then mergeJob job u else job)
    currentJob :=
      match s.currentJob with
      | some cj => if cj.job_id = jobId then some (mergeJob cj u) else some cj
      | none => none }

/-- The `removeJob` action of `useAppStore.ts`: filters `jobs` down to
the jobs whose `job_id` differs from `jobId`, and nulls `currentJob`
exactly when its `job_id` equals `jobId`. -/
def removeJob (s : AppState) (jobId : String) : AppState :=
  { s with
    jobs := s.jobs.filter (fun job => job.job_id ≠ jobId)
    currentJob :=
      match s.currentJob with
      | some cj => if cj.job_id = jobId then none else some cj
      | none => none }

/-- The `setProcessingProgress` action of `useAppStore.ts`: overwrites
`processingProgress` with the given value unconditionally. -/
def setProcessingProgress (s : AppState) (p : ℚ) : AppState :=
  { s with processingProgress := p }

end AppState

/-! ### Upload validation, from `src/frontend/src/components/VideoInput.tsx` -/

/-- The data of a browser `File` object that `handleFileUpload`
inspects: its MIME `type` string and its `size` in bytes. -/
structure WebFile where
  type : String
  size : Nat
deriving DecidableEq, Repr

/-- The `allowedTypes` array of `handleFileUpload`. -/
def allowedTypes : List String :=
  ["video/mp4", "video/webm", "video/ogg", "video/avi", "video/mov"]

/-- The `maxSize` constant of `handleFileUpload`: `500 * 1024 * 1024`. -/
def maxSize : Nat := 500 * 1024 * 1024

/-- The observable outcome of one `handleFileUpload` call:
the early `disabled` return, the two validation rejections (each shows
an `alert` and returns before any upload state is touched), or the
upload simulation, which ends by calling `setVideoFile` with the file. -/
inductive UploadResult
  | ignored
  | rejectedFormat
  | rejectedSize
  | uploadStarted (file : WebFile)
deriving DecidableEq, Repr

/-- Whether the outcome started an upload (and hence eventually calls
`setVideoFile` with the file). -/
def UploadResult.isUploadStarted : UploadResult → Bool
  | .uploadStarted _ => true
  | _ => false

/-- The control flow of `handleFileUpload` in `VideoInput.tsx`:
return if `disabled`; reject when `file.type` is not in `allowedTypes`;
reject when `file.size > maxSize`; otherwise run the upload simulation,
which calls `setVideoFile(file)` when the simulated progress reaches
100. -/
def handleFileUpload (disabled : Bool) (file : WebFile) : UploadResult :=
  if disabled then .ignored
  else if !(allowedTypes.contains file.type) then .rejectedFormat
  else if file.size > maxSize then .rejectedSize
  else .uploadStarted file

/-! ### The Job Pipeline Orchestrator, modelled from the spec

The backend orchestrator (spec §§3-4: JobStateMachine,
PipelineOrchestrator, retry policy, cancellation) is not under `src/`;
only its frontend callers are.  The definitions in this section are
modelled from the specification text. -/

/-- Modelled from the spec: the six real pipeline stages of §4.1, in
their fixed order `Downloading → Separating → Transcribing →
Translating → Synthesizing → Muxing` (the backend stage machine is not
in `src/`). -/
inductive Stage
  | downloading
  | separating
  | transcribing
  | translating
  | synthesizing
  | muxing
deriving DecidableEq, Repr

/-- Modelled from the spec: the 0-based position of a stage in the
order of §4.1. -/
def Stage.idx : Stage → Nat
  | .downloading => 0
  | .separating => 1
  | .transcribing => 2
  | .translating => 3
  | .synthesizing => 4
  | .muxing => 5

/-- Modelled from the spec: `N = 6`, the number of real stages (§4.1). -/
def numStages : Nat := 6

/-- Modelled from the spec: the successor of a real stage, `none` for
the last (`Muxing`). -/
def Stage.next : Stage → Option Stage
  | .downloading => some .separating
  | .separating => some .transcribing
  | .transcribing => some .translating
  | .translating => some .synthesizing
  | .synthesizing => some .muxing
  | .muxing => none

/-- Modelled from the spec: the `currentStage` field of a Job (§3),
`Queued`/`Done` being pseudo-stages bracketing the real work. -/
inductive CurrentStage
  | queued
  | working (s : Stage)
  | doneStage
deriving DecidableEq, Repr

/-- Modelled from the spec: the `status` field of a Job (§3). -/
inductive Status
  | pending
  | running
  | completed
  | failed
  | cancelled
deriving DecidableEq, Repr

/-- Modelled from the spec: whether a status is terminal (§3). -/
def Status.isTerminal : Status → Bool
  | .completed => true
  | .failed => true
  | .cancelled => true
  | _ => false

/-- Modelled from the spec: the error taxonomy of §7. -/
inductive ErrKind
  | sourceUnavailable
  | unsupportedFormat
  | modelUnavailable
  | resourceExhausted
  | recognitionFailure
  | allTranslationEnginesFailed
  | voiceUnavailable
  | muxFailure
  | cancelledErr
  | timeoutErr
  | internal
deriving DecidableEq, Repr

/-- Modelled from the spec: the retryable tag of §4.4 / §7 —
`ResourceExhausted` and stage timeouts are retryable, the other kinds
fail the job immediately. -/
def ErrKind.retryable : ErrKind → Bool
  | .resourceExhausted => true
  | .timeoutErr => true
  | _ => false

/-- Modelled from the spec: the structured `error` of a Job (§3): kind,
message and the failing stage. -/
structure JobError where
  kind : ErrKind
  message : String
  stage : Stage
deriving DecidableEq, Repr

/-- Modelled from the spec: the mutable Job fields the orchestrator owns
(§3, §5): `status`, `currentStage`, `progress` (a rational in
`[0,100]`), the append-only `artifacts` map (stage to output locator),
the `error` field, and the cooperative cancellation flag of §4.4. -/
structure OJob where
  status : Status
  currentStage : CurrentStage
  progress : ℚ
  artifacts : List (Stage × String)
  error : Option JobError
  cancelRequested : Bool
deriving DecidableEq, Repr

/-- Modelled from the spec: the Job created on admission (§3 lifecycle):
`Pending`, at the `Queued` pseudo-stage, zero progress, no artifacts,
no error. -/
def initJob : OJob :=
  ⟨.pending, .queued, 0, [], none, false⟩

/-- Modelled from the spec: the observable progress after `k` completed
stages, `k / N * 100` (§4.1). -/
def progressAt (k : Nat) : ℚ := (k : ℚ) * 100 / (numStages : ℚ)

/-- Modelled from the spec: the outcome of one stage attempt (or of a
whole retry loop): a stage artifact on success, or a structured failure
kind with message. -/
inductive StageResult
  | success (artifact : String)
  | failure (kind : ErrKind) (message : String)
deriving DecidableEq, Repr

/-- Modelled from the spec: the retry loop of §4.4.  `exec n` is the
result of the `n`-th executor invocation; the loop invokes the executor
up to `budget` times, stopping on success or on a non-retryable
failure, and returns the number of invocations made together with the
last result.  (Backoff delays are timing, not modelled.) -/
def runAttempts (exec : Nat → StageResult) (start : Nat) : Nat → Nat × StageResult
  | 0 => (0, .failure .internal "no attempt budget")
  | budget + 1 =>
    match exec start with
    | .success a => (1, .success a)
    | .failure k m =>
      if k.retryable ∧ budget ≠ 0 then
        let r := runAttempts exec (start + 1) budget
        (r.1 + 1, r.2)
      else (1, .failure k m)

/-- Modelled from the spec: run one stage under the retry policy with
the configured maximum attempt count (§4.4). -/
def runStageWithRetry (exec : Nat → StageResult) (maxAttempts : Nat) : Nat × StageResult :=
  runAttempts exec 0 maxAttempts

/-- Modelled from the spec: one orchestrator transition of the
JobStateMachine (§4.1).  A `Pending` job is started (`startedAt` is
timing, not modelled).  For a `Running` job the cancellation flag is
checked first (§4.4: cancellation prevents new work and stops the
current stage at its next checkpoint, pinning `currentStage`); otherwise
`res` is the outcome of the executor of the current stage after retries:
success appends the artifact and advances (`progress` jumps to
`(n+1)/N * 100`, the last stage completing the job with `progress =
100`), failure pins `currentStage`, records the structured error and
fails the job.  Terminal jobs are immutable. -/
def step (j : OJob) (res : StageResult) : OJob :=
  match j.status with
  | .pending =>
    if j.cancelRequested then { j with status := .cancelled }
    else { j with status := .running, currentStage := .working .downloading }
  | .running =>
    if j.cancelRequested then { j with status := .cancelled }
    else
      match j.currentStage with
      | .working s =>
        match res with
        | .success a =>
          let arts := j.artifacts ++ [(s, a)]
          match s.next with
          | some s₂ =>
            { j with currentStage := .working s₂
                     progress := progressAt (s.idx + 1)
                     artifacts := arts }
          | none =>
            { j with status := .completed
                     currentStage := .doneStage
                     progress := 100
                     artifacts := arts }
        | .failure k m =>
          { j with status := .failed, error := some ⟨k, m, s⟩ }
      | _ => j
  | _ => j

/-- Modelled from the spec: an external cancellation request (§6):
best-effort, it only sets the cooperative flag; the caller polls status
to observe the eventual `Cancelled`. -/
def requestCancel (j : OJob) : OJob :=
  { j with cancelRequested := true }

/-- Modelled from the spec: the orchestrator driving a job through a
sequence of stage outcomes, one `step` per outcome. -/
def run (j : OJob) : List StageResult → OJob
  | [] => j
  | r :: rs => run (step j r) rs

/-- Modelled from the spec: whether the job has recorded an artifact for
the given stage. -/
def hasArtifact (j : OJob) (s : Stage) : Bool :=
  j.artifacts.any (fun p => p.1 == s)

/-- The states a job can be in while owned by the orchestrator: the
initial `Pending` job, closed under orchestrator transitions and
external cancellation requests. -/
inductive Reachable : OJob → Prop
  | init : Reachable initJob
  | step {j : OJob} (res : StageResult) : Reachable j → Reachable (step j res)
  | cancel {j : OJob} : Reachable j → Reachable (requestCancel j)

/-! ### The TranslationFallbackChain, modelled from the spec (§4.3) -/

/-- Modelled from the spec: one configured translation engine of the
fallback chain (§4.3): its name and the (atomic) outcome of invoking it
on the whole segment batch — either the fully translated segments or a
failure reason.  Partial results from a crashing engine call are
discarded and appear only as a failure. -/
structure Engine where
  name : String
  attempt : Except String (List String)

/-- Modelled from the spec: the fallback iteration of §4.3, also
returning the number of engine attempts made.  Engines are tried in
order; the first success returns `(translatedSegments, engineUsed)`;
each failure is recorded and the chain falls through; if every engine
fails the chain fails with the ordered per-engine failure reasons
(`kind = AllTranslationEnginesFailed` at the stage level). -/
def runChainFrom : List Engine → List (String × String) →
    Nat × Except (List (String × String)) (List String × String)
  | [], failures => (0, .error failures)
  | e :: rest, failures =>
    match e.attempt with
    | .ok segs => (1, .ok (segs, e.name))
    | .error reason =>
      let r := runChainFrom rest (failures ++ [(e.name, reason)])
      (r.1 + 1, r.2)

/-- Modelled from the spec: run the TranslationFallbackChain on an
ordered engine list, starting with no recorded failures. -/
def runChain (engines : List Engine) :
    Nat × Except (List (String × String)) (List String × String) :=
  runChainFrom engines []

/-! ### Invariants of the modelled orchestrator -/

/-- The progress-coherence invariant of a job owned by the
orchestrator: a `Pending` job has zero progress; a `Running` job sits at
a real stage with progress equal to the base of that stage; a `Completed` job
has progress `100`; every non-`Completed` job has progress strictly
below `100`. -/
def Inv (j : OJob) : Prop :=
  (j.status = .pending → j.progress = 0) ∧
  (j.status = .running → ∃ s, j.currentStage = .working s ∧ j.progress = progressAt s.idx) ∧
  (j.status = .completed → j.progress = 100) ∧
  (j.status ≠ .completed → j.progress < 100)

/-- The error-field invariant: `error` is `none` off `Failed`, populated
on `Failed`, and any recorded error names the stage pinned in
`currentStage`. -/
def ErrInv (j : OJob) : Prop :=
  (j.status ≠ .failed → j.error = none) ∧
  (j.status = .failed → j.error.isSome = true) ∧
  (∀ e, j.error = some e → j.currentStage = .working e.stage)

/-! ### Sample data for witnesses -/

/-- A sample `Job` record with `job_id = "a"`. -/
def jobA : Job :=
  ⟨1, "a", .processing, 10, "file", none, none, "t0", "t1", none, none, none, none⟩

/-- A sample `Job` record with `job_id = "b"`. -/
def jobB : Job :=
  ⟨2, "b", .pending, 0, "url", none, none, "t0", "t1", none, none, none, none⟩

/-- A sample store state holding `jobA` and `jobB`, with `jobA`
current. -/
def sampleState : AppState :=
  ⟨false, none, none, [jobA, jobB], some jobA, false, false, 0, ""⟩

/-! ### Helper lemmas -/

theorem progressAt_zero : progressAt 0 = 0 := by
  simp [progressAt]

theorem progressAt_lt_100 (k : Nat) (hk : k < 6) : progressAt k < 100 := by
  unfold progressAt numStages
  rw [div_lt_iff₀ (by norm_num)]
  have h : (k : ℚ) < 6 := by exact_mod_cast hk
  push_cast
  nlinarith

theorem progressAt_mono (k : Nat) : progressAt k ≤ progressAt (k + 1) := by
  unfold progressAt numStages
  push_cast
  gcongr
  linarith

theorem progressAt_le_100 (k : Nat) (hk : k < 6) : progressAt k ≤ 100 :=
  le_of_lt (progressAt_lt_100 k hk)

theorem Stage.idx_lt (s : Stage) : s.idx < 6 := by
  cases s <;> simp [Stage.idx]

theorem Stage.next_idx (s s₂ : Stage) (h : s.next = some s₂) : s₂.idx = s.idx + 1 := by
  cases s <;> simp only [Stage.next, Option.some.injEq, reduceCtorEq] at h <;> subst h <;> rfl

theorem step_terminal (j : OJob) (res : StageResult)
    (h : j.status = .completed ∨ j.status = .failed ∨ j.status = .cancelled) :
    step j res = j := by
  rcases h with h | h | h <;> simp [step, h]

theorem run_terminal (j : OJob) (l : List StageResult)
    (h : j.status = .completed ∨ j.status = .failed ∨ j.status = .cancelled) :
    run j l = j := by
  induction l with
  | nil => rfl
  | cons r rs ih => rw [run, step_terminal j r h]; exact ih

theorem reachable_run (j : OJob) (l : List StageResult) (h : Reachable j) :
    Reachable (run j l) := by
  induction l generalizing j with
  | nil => exact h
  | cons r rs ih => exact ih (step j r) (Reachable.step r h)

theorem inv_initJob : Inv initJob := by
  refine ⟨fun _ => rfl, fun h => ?_, fun h => ?_, fun _ => ?_⟩
  · simp [initJob] at h
  · simp [initJob] at h
  · norm_num [initJob]

theorem inv_step (j : OJob) (res : StageResult) (h : Inv j) : Inv (step j res) := by
  obtain ⟨hp, hr, hc, hnc⟩ := h
  unfold step
  split
  next hst =>
    split
    next hflag =>
      exact ⟨by simp, by simp, by simp, fun _ => by simpa using hnc (by simp [hst])⟩
    next hflag =>
      refine ⟨by simp, fun _ => ?_, by simp, fun _ => by simpa using hnc (by simp [hst])⟩
      exact ⟨.downloading, rfl, by simpa [Stage.idx, progressAt_zero] using hp hst⟩
  next hst =>
    split
    next hflag =>
      exact ⟨by simp, by simp, by simp, fun _ => by simpa using hnc (by simp [hst])⟩
    next hflag =>
      split
      next s hcs =>
        split
        next a =>
          split
          next s₂ hnext =>
            refine ⟨by simp [hst], fun _ => ?_, by simp [hst], fun _ => ?_⟩
            · exact ⟨s₂, rfl, by simp [Stage.next_idx s s₂ hnext]⟩
            · have h6 : s.idx + 1 < 6 := Stage.next_idx s s₂ hnext ▸ Stage.idx_lt s₂
              simpa using progressAt_lt_100 (s.idx + 1) h6
          next hnext =>
            exact ⟨by simp, by simp, fun _ => by simp, by simp⟩
        next k m =>
          exact ⟨by simp, by simp, by simp, fun _ => by simpa using hnc (by simp [hst])⟩
      next hcs =>
        exact ⟨hp, hr, hc, hnc⟩
  next hst hst₂ hst₃ =>
    exact ⟨hp, hr, hc, hnc⟩

theorem inv_cancel (j : OJob) (h : Inv j) : Inv (requestCancel j) := by
  obtain ⟨hp, hr, hc, hnc⟩ := h
  exact ⟨hp, hr, hc, hnc⟩

theorem inv_reachable (j : OJob) (h : Reachable j) : Inv j := by
  induction h with
  | init => exact inv_initJob
  | step res _ ih => exact inv_step _ res ih
  | cancel _ ih => exact inv_cancel _ ih

theorem errInv_initJob : ErrInv initJob := by
  refine ⟨fun _ => rfl, fun h => ?_, fun e he => ?_⟩
  · simp [initJob] at h
  · simp [initJob] at he

theorem errInv_step (j : OJob) (res : StageResult) (h : ErrInv j) : ErrInv (step j res) := by
  obtain ⟨hn, hs, hm⟩ := h
  unfold step
  split
  next hst =>
    have hnone : j.error = none := hn (by simp [hst])
    split
    next hflag =>
      exact ⟨fun _ => by simpa using hnone, by simp, fun e he => by simp [hnone] at he⟩
    next hflag =>
      exact ⟨fun _ => by simpa using hnone, by simp, fun e he => by simp [hnone] at he⟩
  next hst =>
    have hnone : j.error = none := hn (by simp [hst])
    split
    next hflag =>
      exact ⟨fun _ => by simpa using hnone, by simp, fun e he => by simp [hnone] at he⟩
    next hflag =>
      split
      next s hcs =>
        split
        next a =>
          split
          next s₂ hnext =>
            exact ⟨fun _ => by simpa using hnone, by simp [hst], fun e he => by simp [hnone] at he⟩
          next hnext =>
            exact ⟨fun _ => by simpa using hnone, by simp, fun e he => by simp [hnone] at he⟩
        next k m =>
          refine ⟨by simp, fun _ => by simp, fun e he => ?_⟩
          simp only [Option.some.injEq] at he
          simp [← he, hcs]
      next hcs =>
        exact ⟨hn, hs, hm⟩
  next hst hst₂ hst₃ =>
    exact ⟨hn, hs, hm⟩

theorem errInv_cancel (j : OJob) (h : ErrInv j) : ErrInv (requestCancel j) := by
  obtain ⟨hn, hs, hm⟩ := h
  exact ⟨hn, hs, hm⟩

theorem errInv_reachable (j : OJob) (h : Reachable j) : ErrInv j := by
  induction h with
  | init => exact errInv_initJob
  | step res _ ih => exact errInv_step _ res ih
  | cancel _ ih => exact errInv_cancel _ ih

/-! ### Claims -/

/-- C1: while the status of a job is `Running`, no orchestrator status update
(a pipeline `step`, whatever the stage outcome, or an external
cancellation request) ever sets `progress` to a value strictly lower
than the previously observed progress. -/
theorem c1_running_progress_monotone (j : OJob) (res : StageResult)
    (h : Reachable j) (hrun : j.status = .running) :
    j.progress ≤ (step j res).progress ∧ j.progress ≤ (requestCancel j).progress := by
  obtain ⟨-, hr, -, -⟩ := inv_reachable j h
  obtain ⟨s, hcs, hpr⟩ := hr hrun
  refine ⟨?_, le_refl j.progress⟩
  unfold step
  split
  next hst => simp [hrun] at hst
  next hst =>
    split
    next hflag => exact le_refl j.progress
    next hflag =>
      split
      next s₁ hcs₁ =>
        rw [hcs] at hcs₁
        injection hcs₁ with hss
        subst hss
        split
        next a =>
          split
          next s₂ hnext =>
            rw [hpr]
            exact progressAt_mono s.idx
          next hnext =>
            rw [hpr]
            exact progressAt_le_100 s.idx (Stage.idx_lt s)
        next k m => exact le_refl j.progress
      next hcs₁ => exact le_refl j.progress
  next hst hst₂ hst₃ => exact le_refl j.progress

/-- Witness for C1: the freshly started job (one orchestrator step from
the initial job) is `Running`, and a further step does not decrease its
progress. -/
theorem c1_witness :
    (step initJob (StageResult.success "v")).progress ≤
      (step (step initJob (StageResult.success "v")) (StageResult.success "v")).progress :=
  (c1_running_progress_monotone (step initJob (StageResult.success "v"))
    (StageResult.success "v") (Reachable.step (StageResult.success "v") Reachable.init) rfl).1

/-- C2: the progress of a job is `100` exactly when its status is
`Completed`; a `Pending`, `Running`, `Failed` or `Cancelled` job always
has progress strictly below `100`. -/
theorem c2_progress_100_iff_completed (j : OJob) (h : Reachable j) :
    j.progress = 100 ↔ j.status = .completed := by
  obtain ⟨-, -, hc, hnc⟩ := inv_reachable j h
  constructor
  · intro h100
    by_contra hne
    exact absurd h100 (ne_of_lt (hnc hne))
  · exact hc

/-- Witness for C2: driving the initial job through all six stages
successfully completes it, and the theorem then yields `progress =
100`. -/
theorem c2_witness :
    (run initJob (List.replicate 7 (StageResult.success "v"))).progress = 100 :=
  (c2_progress_100_iff_completed (run initJob (List.replicate 7 (StageResult.success "v")))
    (reachable_run initJob (List.replicate 7 (StageResult.success "v")) Reachable.init)).mpr rfl

/-- C4: when the translation fallback chain is invoked with an ordered
engine list `[A, B, ...]` where the (atomic) attempt of `A` fails and
that of `B` succeeds, the chain makes exactly two engine attempts and
returns exactly the translated segment batch of `B` tagged with the
name of `B` — engine
attempts are whole-batch `Except` values, so the failed `A` contributes
no segments and no partial or mixed result can be returned. -/
theorem c4_chain_first_success_wins (nameA nameB reason : String)
    (segsB : List String) (rest : List Engine) :
    runChain (⟨nameA, .error reason⟩ :: ⟨nameB, .ok segsB⟩ :: rest) =
      (2, .ok (segsB, nameB)) := rfl

/-- C5: a `Running` job at the `Separating` stage whose executor fails
every attempt with the retryable kind `ResourceExhausted`, under the
configured maximum of 2 attempts, sees exactly 2 executor invocations,
and applying the resulting outcome transitions the job to `Failed` with
`error.kind = ResourceExhausted`, `currentStage` pinned at
`Separating`. -/
theorem c5_separating_retry_exhaustion (msg : String) (pr : ℚ)
    (arts : List (Stage × String)) (err : Option JobError) :
    runStageWithRetry (fun _ => StageResult.failure .resourceExhausted msg) 2 =
      (2, StageResult.failure .resourceExhausted msg) ∧
    (step ⟨.running, .working .separating, pr, arts, err, false⟩
        (StageResult.failure .resourceExhausted msg)).status = .failed ∧
    (step ⟨.running, .working .separating, pr, arts, err, false⟩
        (StageResult.failure .resourceExhausted msg)).error =
      some ⟨.resourceExhausted, msg, .separating⟩ ∧
    (step ⟨.running, .working .separating, pr, arts, err, false⟩
        (StageResult.failure .resourceExhausted msg)).currentStage = .working .separating :=
  ⟨rfl, rfl, rfl, rfl⟩

/-- C6: a job cancelled while its `Transcribing` stage is in flight
(`cancelRequested` set while `Running` at `Transcribing`) reaches
`status = Cancelled` with `currentStage` still `Transcribing` after any
further nonempty sequence of orchestrator steps — so a poller observes
the eventual `Cancelled` state — its artifact map is unchanged, and in
particular a `Translating` artifact is present afterwards exactly if one
was present before (none is ever produced). -/
theorem c6_cancel_mid_transcribing (pr : ℚ) (arts : List (Stage × String))
    (err : Option JobError) (r : StageResult) (rs : List StageResult) :
    let j : OJob := ⟨.running, .working .transcribing, pr, arts, err, true⟩
    let f := run j (r :: rs)
    f.status = .cancelled ∧ f.currentStage = .working .transcribing ∧
      f.artifacts = arts ∧ hasArtifact f .translating = hasArtifact j .translating := by
  intro j f
  have hf : f = ⟨.cancelled, .working .transcribing, pr, arts, err, true⟩ := by
    show run (step j r) rs = _
    have hstep : step j r = ⟨.cancelled, .working .transcribing, pr, arts, err, true⟩ := rfl
    rw [hstep]
    exact run_terminal _ rs (Or.inr (Or.inr rfl))
  rw [hf]
  exact ⟨rfl, rfl, rfl, rfl⟩

/-- C7: the `error` field of a job is populated exactly when the job is
`Failed` (the field is a single `Option`, so at most one structured
error kind is ever recorded), and any recorded error names the stage
pinned in `currentStage`. -/
theorem c7_error_iff_failed (j : OJob) (h : Reachable j) :
    ((j.error.isSome = true) ↔ j.status = .failed) ∧
    (∀ e, j.error = some e → j.currentStage = .working e.stage) := by
  obtain ⟨hn, hs, hm⟩ := errInv_reachable j h
  refine ⟨⟨?_, hs⟩, hm⟩
  intro hsome
  by_contra hne
  rw [hn hne] at hsome
  simp at hsome

/-- Witness for C7: a job failed at the `Downloading` stage has a
recorded error, and the recorded failing stage matches
`currentStage`. -/
theorem c7_witness :
    ((run initJob [StageResult.success "v",
        StageResult.failure .unsupportedFormat "bad"]).error.isSome = true) ∧
    (run initJob [StageResult.success "v",
        StageResult.failure .unsupportedFormat "bad"]).currentStage = .working .downloading := by
  have h := c7_error_iff_failed
    (run initJob [StageResult.success "v", StageResult.failure .unsupportedFormat "bad"])
    (reachable_run initJob
      [StageResult.success "v", StageResult.failure .unsupportedFormat "bad"] Reachable.init)
  exact ⟨h.1.mpr rfl, h.2 ⟨.unsupportedFormat, "bad", .downloading⟩ rfl⟩

/-- C3, counterexample: the claim asserts six real stages with a
`Separating` stage between `Downloading` and `Transcribing` (`N = 6`),
but the stage vocabulary of `types.ts` enumerates exactly the values
`idle, downloading, transcribing, translating, generating_audio,
merging, done`: no member carries the value `"separating"`, and only
five real stages exist. -/
theorem c3_counterexample :
    dubbingStages.map DubbingStage.value =
      ["idle", "downloading", "transcribing", "translating",
        "generating_audio", "merging", "done"] ∧
    (dubbingStages.map DubbingStage.value).contains "separating" = false ∧
    realStages.length = 5 := by
  refine ⟨rfl, ?_, rfl⟩
  decide

/-- C3, amended: the stage vocabulary decomposes into exactly the five
real stages in the fixed order `Downloading, Transcribing, Translating,
GeneratingAudio, Merging` (`N = 5`), bracketed by the pseudo-stages
`Idle` and `Done`; `Transcribing` immediately follows `Downloading`,
with no `Separating` stage in between, and `getStageInfo` renders each
of these stages. -/
theorem c3_stage_order_amended :
    dubbingStages =
      [DubbingStage.idle] ++
        [.downloading, .transcribing, .translating, .generating_audio, .merging] ++
        [.done] ∧
    realStages = [.downloading, .transcribing, .translating, .generating_audio, .merging] ∧
    realStages.length = 5 ∧
    (getStageInfo .downloading).label = "Đang tải video" ∧
    (getStageInfo .merging).label = "Đang hợp nhất" :=
  ⟨rfl, rfl, rfl, rfl, rfl⟩

/-- C8: `updateJob jobId updates` spread-merges `updates` into exactly
the jobs whose `job_id` equals `jobId` and leaves every other job in
place, preserving list length and order (positions are
unchanged); `currentJob` is merged exactly when its `job_id` equals
`jobId`; all other store fields are untouched. -/
theorem c8_updateJob_frame (s : AppState) (jobId : String) (u : JobUpdate) :
    (s.updateJob jobId u).jobs.length = s.jobs.length ∧
    (∀ i : Nat, ∀ jb : Job, s.jobs[i]? = some jb → jb.job_id = jobId →
      (s.updateJob jobId u).jobs[i]? = some (mergeJob jb u)) ∧
    (∀ i : Nat, ∀ jb : Job, s.jobs[i]? = some jb → jb.job_id ≠ jobId →
      (s.updateJob jobId u).jobs[i]? = some jb) ∧
    (∀ cj : Job, s.currentJob = some cj → cj.job_id = jobId →
      (s.updateJob jobId u).currentJob = some (mergeJob cj u)) ∧
    (∀ cj : Job, s.currentJob = some cj → cj.job_id ≠ jobId →
      (s.updateJob jobId u).currentJob = some cj) ∧
    (s.currentJob = none → (s.updateJob jobId u).currentJob = none) ∧
    (s.updateJob jobId u).isLoading = s.isLoading ∧
    (s.updateJob jobId u).error = s.error ∧
    (s.updateJob jobId u).success = s.success ∧
    (s.updateJob jobId u).hasJobStats = s.hasJobStats ∧
    (s.updateJob jobId u).isProcessing = s.isProcessing ∧
    (s.updateJob jobId u).processingProgress = s.processingProgress ∧
    (s.updateJob jobId u).processingStatus = s.processingStatus := by
  refine ⟨?_, ?_, ?_, ?_, ?_, ?_, rfl, rfl, rfl, rfl, rfl, rfl, rfl⟩
  · simp [AppState.updateJob]
  · intro i jb hget hid
    simp [AppState.updateJob, List.getElem?_map, hget, hid]
  · intro i jb hget hid
    simp [AppState.updateJob, List.getElem?_map, hget, hid]
  · intro cj hcj hid
    simp [AppState.updateJob, hcj, hid]
  · intro cj hcj hid
    simp [AppState.updateJob, hcj, hid]
  · intro hnone
    simp [AppState.updateJob, hnone]

/-- Witness for C8: in the sample state, updating job `"a"` with the
empty partial leaves job `"b"` at its position untouched and merges the
matching `currentJob`. -/
theorem c8_witness :
    (sampleState.updateJob "a" JobUpdate.empty).jobs[1]? = some jobB ∧
    (sampleState.updateJob "a" JobUpdate.empty).currentJob =
      some (mergeJob jobA JobUpdate.empty) := by
  have h := c8_updateJob_frame sampleState "a" JobUpdate.empty
  exact ⟨h.2.2.1 1 jobB rfl (by decide), h.2.2.2.1 jobA rfl rfl⟩

/-- C9: after `removeJob jobId`, no job with `job_id = jobId` remains;
every job with a different `job_id` is retained, and the surviving list
is a sublist of the original (original order); `currentJob` becomes
`null` exactly when its `job_id` equalled `jobId`, and is otherwise
unchanged. -/
theorem c9_removeJob_spec (s : AppState) (jobId : String) :
    (∀ jb ∈ (s.removeJob jobId).jobs, jb.job_id ≠ jobId) ∧
    (s.removeJob jobId).jobs.Sublist s.jobs ∧
    (∀ jb ∈ s.jobs, jb.job_id ≠ jobId → jb ∈ (s.removeJob jobId).jobs) ∧
    (∀ cj : Job, s.currentJob = some cj → cj.job_id = jobId →
      (s.removeJob jobId).currentJob = none) ∧
    (∀ cj : Job, s.currentJob = some cj → cj.job_id ≠ jobId →
      (s.removeJob jobId).currentJob = some cj) ∧
    (s.currentJob = none → (s.removeJob jobId).currentJob = none) := by
  refine ⟨?_, ?_, ?_, ?_, ?_, ?_⟩
  · intro jb hmem
    simp [AppState.removeJob, List.mem_filter] at hmem
    exact hmem.2
  · exact List.filter_sublist s.jobs
  · intro jb hmem hne
    simp [AppState.removeJob, List.mem_filter]
    exact ⟨hmem, hne⟩
  · intro cj hcj hid
    simp [AppState.removeJob, hcj, hid]
  · intro cj hcj hid
    simp [AppState.removeJob, hcj, hid]
  · intro hnone
    simp [AppState.removeJob, hnone]

/-- Witness for C9: removing job `"a"` from the sample state keeps job
`"b"` and nulls the matching `currentJob`. -/
theorem c9_witness :
    jobB ∈ (sampleState.removeJob "a").jobs ∧
    (sampleState.removeJob "a").currentJob = none := by
  have h := c9_removeJob_spec sampleState "a"
  exact ⟨h.2.2.1 jobB (by decide) (by decide), h.2.2.2.1 jobA rfl rfl⟩

/-- C10: `handleFileUpload` rejects every file whose MIME type is not
among the five allowed video types or whose size exceeds
`500 * 1024 * 1024` bytes: no upload is started, so `setVideoFile` is
never called with that file. -/
theorem c10_invalid_file_rejected (disabled : Bool) (f : WebFile)
    (h : f.type ∉ allowedTypes ∨ maxSize < f.size) :
    (handleFileUpload disabled f).isUploadStarted = false := by
  unfold handleFileUpload
  split
  next hdis => rfl
  next hdis =>
    split
    next hfmt => rfl
    next hfmt =>
      split
      next hsize => rfl
      next hsize =>
        exfalso
        rcases h with hmem | hbig
        · simp at hfmt
          exact hmem hfmt
        · exact hsize hbig

/-- Witness for C10: an unsupported `video/mkv` file is not uploaded. -/
theorem c10_witness :
    (handleFileUpload false ⟨"video/mkv", 1024⟩).isUploadStarted = false :=
  c10_invalid_file_rejected false ⟨"video/mkv", 1024⟩ (Or.inl (by decide))

end Dubbing
